import Mathlib

/-!
Shallow embedding of the Device Session & Fleet Command Execution subsystem of
the network-element-monitor repository.  The embedded code comes from
`backend/network_device.py` (NetworkDevice), `backend/scheduler.py`
(backup_all_devices, scheduler), `backend/main.py` (ConnectionManager.broadcast)
as given in `src/docs/NETWORK_MONITORING.md` / `src/docs/MODIFICATION_GUIDE.md`,
and `src/frontend/src/components/Dashboard.tsx`.
-/

namespace NetMon

/-! ## Python dict with insertion order, as returned by `execute_commands` -/

/-- A Python `dict[str, str]`: insertion-ordered association list.
Updating an existing key keeps its original position. -/
abbrev Dict := List (String × String)

def dictHasKey (d : Dict) (k : String) : Bool :=
  d.any fun p => p.1 == k

/-- `d[k] = v` with Python dict semantics: in-place update if the key exists,
append otherwise. -/
def dictSet (d : Dict) (k v : String) : Dict :=
  if dictHasKey d k then
    d.map fun p => if p.1 == k then (k, v) else p
  else d ++ [(k, v)]

def dictKeys (d : Dict) : List String := d.map Prod.fst

/-! ## NetworkDevice (backend/network_device.py) -/

/-- An underlying netmiko `ConnectHandler` connection object, identified by the
resource it holds. -/
structure Conn where
  id : Nat
deriving DecidableEq

/-- `NetworkDevice`: `self.connection` is `None` until `connect` succeeds.
`disconnect` never resets it (faithful to the source, which only calls
`self.connection.disconnect()`). -/
structure NetworkDevice where
  connection : Option Conn
deriving DecidableEq

/-- What the transport does when `send_command` is invoked on the wire. -/
inductive SendOutcome where
  | output (s : String)
  | raises (e : String)
deriving DecidableEq

/-- `connect`: `ConnectHandler(**info)` either yields a connection (stored,
return True) or raises (caught, return False, `self.connection` unchanged). -/
def NetworkDevice.connect (d : NetworkDevice) (handler : Option Conn) :
    NetworkDevice × Bool :=
  match handler with
  | some c => ({ connection := some c }, true)
  | none => (d, false)

/-- `disconnect`: `if self.connection: self.connection.disconnect()`.
Returns the device (the `connection` field is NOT cleared by the source) and
the list of underlying-resource release calls issued. -/
def NetworkDevice.disconnect (d : NetworkDevice) : NetworkDevice × List Nat :=
  match d.connection with
  | some c => (d, [c.id])
  | none => (d, [])

/-- `execute_command`: raises "Not connected to device" when
`self.connection` is falsy, WITHOUT touching the transport; otherwise invokes
`send_command` (I/O) and returns its output or re-raises its exception.
The second component records whether transport I/O was attempted. -/
def NetworkDevice.execute_command (d : NetworkDevice) (beh : SendOutcome) :
    Except String String × Bool :=
  match d.connection with
  | none => (Except.error "Not connected to device", false)
  | some _ =>
    match beh with
    | .output s => (Except.ok s, true)
    | .raises e => (Except.error e, true)

/-- The value stored by one iteration of the `execute_commands` loop:
`results[command] = self.execute_command(command)` on success,
`results[command] = f"Error: {str(e)}"` when it raises. -/
def cmdEntry (d : NetworkDevice) (beh : SendOutcome) : String :=
  match (d.execute_command beh).1 with
  | .ok out => out
  | .error e => "Error: " ++ e

/-- The loop body of `execute_commands`, indexed from `i`, threading the
results dict `acc`.  Also returns the per-iteration trace
`(command, stored value)` in execution order. -/
def execCommandsGo (d : NetworkDevice) (beh : Nat → SendOutcome) :
    List String → Nat → Dict → Dict × List (String × String)
  | [], _, acc => (acc, [])
  | cmd :: rest, i, acc =>
    let r := execCommandsGo d beh rest (i + 1) (dictSet acc cmd (cmdEntry d (beh i)))
    (r.1, (cmd, cmdEntry d (beh i)) :: r.2)

/-- `execute_commands(commands)`: the returned dict. -/
def NetworkDevice.execute_commands (d : NetworkDevice) (cmds : List String)
    (beh : Nat → SendOutcome) : Dict :=
  (execCommandsGo d beh cmds 0 []).1

/-- The execution trace of `execute_commands`: one entry per loop iteration,
in submission order. -/
def NetworkDevice.executeTrace (d : NetworkDevice) (cmds : List String)
    (beh : Nat → SendOutcome) : List (String × String) :=
  (execCommandsGo d beh cmds 0 []).2

/-! ## Session handle states, viewed together with the underlying transport -/

/-- The observable lifecycle position of a `NetworkDevice` handle. -/
inductive SessionState where
  | NeverConnected
  | Connected
  | Closed
deriving DecidableEq

/-- A handle together with the set of underlying connection resources whose
transport has already been shut down by a `disconnect` call. -/
structure SessView where
  dev : NetworkDevice
  closedIds : List Nat
deriving DecidableEq

def SessView.state (v : SessView) : SessionState :=
  match v.dev.connection with
  | none => .NeverConnected
  | some c => if c.id ∈ v.closedIds then .Closed else .Connected

/-- `close` = `NetworkDevice.disconnect`, recording the transport shutdowns it
issues.  The handle's `connection` field survives (as in the source). -/
def SessView.close (v : SessView) : SessView :=
  { dev := (v.dev.disconnect).1
    closedIds := v.closedIds ++ (v.dev.disconnect).2 }

/-! ## Fleet pass: backup_all_devices (backend/scheduler.py) -/

structure Creds where
  username : String
  password : String
  device_type : Option String
deriving DecidableEq

structure Element where
  eid : Nat
  name : String
  ip_address : String
  status : String
  credentials : Option Creds
deriving DecidableEq

/-- How one device behaves during its backup attempt. -/
inductive DevRun where
  | connectFail
  | execRaises (e : String)
  | ok (config : String)
deriving DecidableEq

def DevRun.succeeds : DevRun → Bool
  | .ok _ => true
  | _ => false

/-- A command exception after a successful connect skips `device.disconnect()`
(there is no finally block), so the session stays open. -/
def DevRun.leaks : DevRun → Bool
  | .execRaises _ => true
  | _ => false

/-- The loop only attempts devices that the query selected
(`{"status": "active"}`) and that carry stored credentials. -/
def eligible (e : Element) : Bool :=
  e.status == "active" && e.credentials.isSome

structure Backup where
  element_id : Nat
  device_name : String
  config_content : String
deriving DecidableEq

inductive SessEvent where
  | opened (eid : Nat)
  | closed (eid : Nat)
deriving DecidableEq

/-- Everything one fleet pass produces: `config_backups` inserts, console log
lines, and the chronological session open/close events. -/
structure PassResult where
  backups : List Backup
  logs : List String
  events : List SessEvent
deriving DecidableEq

def PassResult.append (a b : PassResult) : PassResult :=
  ⟨a.backups ++ b.backups, a.logs ++ b.logs, a.events ++ b.events⟩

/-- One iteration of the `for element in elements` loop of
`backup_all_devices`:
* `connect()` returns False → the `if` body is skipped, nothing is recorded;
* connected but `execute_command` raises → the per-device `except` prints a
  failure line; `disconnect()` is never reached;
* full success → a backup document is stored, a success line is printed, and
  the session is closed.
(The source prints unicode check marks; plain markers are used here.) -/
def processElement (e : Element) (r : DevRun) : PassResult :=
  match r with
  | .connectFail => ⟨[], [], []⟩
  | .execRaises err =>
      ⟨[], ["Failed to backup " ++ e.name ++ ": " ++ err], [.opened e.eid]⟩
  | .ok config =>
      ⟨[⟨e.eid, e.name, config⟩], ["Backed up " ++ e.name],
       [.opened e.eid, .closed e.eid]⟩

def runElements (beh : Nat → DevRun) : List Element → PassResult
  | [] => ⟨[], [], []⟩
  | e :: rest => (processElement e (beh e.eid)).append (runElements beh rest)

/-- `backup_all_devices`: acquiring the device list (`find` over
`network_elements`) is outside the per-device `try`, so its failure propagates
out of the pass; otherwise every eligible device is processed and the pass
returns normally. -/
def backup_all_devices (fetch : Except String (List Element))
    (beh : Nat → DevRun) : Except String PassResult :=
  match fetch with
  | .error err => .error err
  | .ok elems => .ok (runElements beh (elems.filter eligible))

/-! ### Open-session accounting over the event trace -/

def stepOpen (cur : List Nat) : SessEvent → List Nat
  | .opened i => cur ++ [i]
  | .closed i => cur.erase i

/-- The set of open sessions after every prefix of the event trace. -/
def openStates (cur : List Nat) : List SessEvent → List (List Nat)
  | [] => [cur]
  | ev :: rest => cur :: openStates (stepOpen cur ev) rest

/-- The largest number of simultaneously open sessions over a pass. -/
def maxOpen (evs : List SessEvent) : Nat :=
  ((openStates [] evs).map List.length).foldl Nat.max 0

/-! ## Scheduler (backend/scheduler.py, `scheduler`) -/

/-- Start/end instants of each pass: the loop awaits the pass to completion
and only then sleeps for the interval, so pass `i+1` starts at
`end of pass i + interval`. -/
def passTimes (interval : Nat) : Nat → List Nat → List (Nat × Nat)
  | _, [] => []
  | t, d :: rest => (t, t + d) :: passTimes interval (t + d + interval) rest

def schedulerPasses (interval : Nat) (durations : List Nat) : List (Nat × Nat) :=
  passTimes interval 0 durations

/-- Console lines recorded by the first `n` loop iterations (timestamps
elided).  These are the only events the scheduler ever records. -/
def schedulerLog : Nat → List String
  | 0 => []
  | n + 1 => schedulerLog n ++ ["Running scheduled backup", "Backup complete"]

/-! ## Event broadcaster (ConnectionManager.broadcast, backend/main.py) -/

/-- A registered live connection; `healthy` says whether `send_json`
completes, a disconnected client's send raises. -/
structure Subscriber where
  sid : Nat
  healthy : Bool
deriving DecidableEq

/-- `broadcast`: `for connection in self.active_connections: await
connection.send_json(message)` — strictly sequential, no per-subscriber
buffer; a raising send aborts the loop.  Returns the ids that received the
message and the id of the subscriber whose send raised, if any. -/
def broadcast : List Subscriber → List Nat × Option Nat
  | [] => ([], none)
  | s :: rest =>
    if s.healthy then
      ((broadcast rest).1.cons s.sid, (broadcast rest).2)
    else ([], some s.sid)

/-! ## Dashboard stats (frontend/src/components/Dashboard.tsx) -/

structure Stats where
  total : Nat
  active : Nat
  inactive : Nat
  warning : Nat
deriving DecidableEq

/-- The `useMemo` body of `Dashboard`: length plus three exact-string filters. -/
def dashboardStats (elements : List Element) : Stats where
  total := elements.length
  active := (elements.filter fun e => e.status == "active").length
  inactive := (elements.filter fun e => e.status == "inactive").length
  warning := (elements.filter fun e => e.status == "warning").length

/-! ## Concrete inputs used by witnesses and counterexamples -/

def connA : Conn := ⟨7⟩

def devW : NetworkDevice := ⟨some ⟨1⟩⟩

def cmdsW : List String := ["show version", "bogus-cmd"]

def behW : Nat → SendOutcome :=
  fun i => if i == 1 then .raises "bad command" else .output "Cisco IOS ok"

/-- A handle that connected and was then closed: the source leaves
`self.connection` set. -/
def vClosed : SessView := SessView.close ⟨⟨some connA⟩, []⟩

def vConn : SessView := ⟨⟨some connA⟩, []⟩

def vNone : SessView := ⟨⟨none⟩, []⟩

def credsA : Creds := ⟨"admin", "pw", some "cisco_ios"⟩

def elemN (i : Nat) (nm : String) : Element :=
  ⟨i, nm, "10.0.0." ++ toString i, "active", some credsA⟩

def elemsFive : List Element :=
  [elemN 0 "R0", elemN 1 "R1", elemN 2 "R2", elemN 3 "R3", elemN 4 "R4"]

def behLeak : Nat → DevRun := fun _ => .execRaises "timeout"

def behOkAll : Nat → DevRun := fun _ => .ok "cfg"

def behFirstConnectFail : Nat → DevRun :=
  fun i => if i == 0 then .connectFail else .ok "cfg"

def elemsTwo : List Element := [elemN 0 "R0", elemN 1 "R1"]

def subsHealthy : List Subscriber := [⟨0, true⟩, ⟨1, true⟩]

def subsBadFirst : List Subscriber := [⟨0, false⟩, ⟨1, true⟩]

def subsBadMid : List Subscriber := [⟨0, true⟩, ⟨1, false⟩, ⟨2, true⟩]

/-! ## Dict lemmas -/

theorem update_fst (p : String × String) (k v : String) :
    (if p.1 == k then (k, v) else p).1 = p.1 := by
  by_cases h : p.1 = k <;> simp [h]

theorem dictKeys_map_update (d : Dict) (k v : String) :
    dictKeys (d.map fun p => if p.1 == k then (k, v) else p) = dictKeys d := by
  unfold dictKeys
  rw [List.map_map]
  exact List.map_congr_left fun p _ => update_fst p k v

theorem dictKeys_dictSet (d : Dict) (k v : String) :
    dictKeys (dictSet d k v) =
      if dictHasKey d k then dictKeys d else dictKeys d ++ [k] := by
  unfold dictSet
  by_cases h : dictHasKey d k
  · rw [if_pos h, if_pos h]
    exact dictKeys_map_update d k v
  · rw [if_neg h, if_neg h]
    simp [dictKeys]

theorem mem_dictKeys_of_hasKey {d : Dict} {k : String}
    (h : dictHasKey d k = true) : k ∈ dictKeys d := by
  unfold dictHasKey at h
  simp only [List.any_eq_true, beq_iff_eq] at h
  obtain ⟨p, hp, hpk⟩ := h
  simp only [dictKeys, List.mem_map]
  exact ⟨p, hp, hpk⟩

theorem mem_dictKeys_dictSet_self (d : Dict) (k v : String) :
    k ∈ dictKeys (dictSet d k v) := by
  rw [dictKeys_dictSet]
  by_cases h : dictHasKey d k
  · simpa [h] using mem_dictKeys_of_hasKey h
  · simp [h]

theorem mem_dictKeys_dictSet_of_mem {d : Dict} {key : String} (k v : String)
    (h : key ∈ dictKeys d) : key ∈ dictKeys (dictSet d k v) := by
  rw [dictKeys_dictSet]
  by_cases hh : dictHasKey d k <;> simp [hh, h]

/-! ## execute_commands lemmas -/

theorem cmdEntry_raises {d : NetworkDevice} {c : Conn}
    (h : d.connection = some c) (e : String) :
    cmdEntry d (.raises e) = "Error: " ++ e := by
  simp [cmdEntry, NetworkDevice.execute_command, h]

theorem execTrace_map_fst (d : NetworkDevice) (beh : Nat → SendOutcome) :
    ∀ (cmds : List String) (i : Nat) (acc : Dict),
      (execCommandsGo d beh cmds i acc).2.map Prod.fst = cmds := by
  intro cmds
  induction cmds with
  | nil => intro i acc; rfl
  | cons cmd rest ih => intro i acc; simp [execCommandsGo, ih]

theorem execTrace_getElem (d : NetworkDevice) (beh : Nat → SendOutcome) :
    ∀ (cmds : List String) (i : Nat) (acc : Dict) (k : Nat) (cmd : String),
      cmds[k]? = some cmd →
      (execCommandsGo d beh cmds i acc).2[k]? = some (cmd, cmdEntry d (beh (i + k))) := by
  intro cmds
  induction cmds with
  | nil => intro i acc k cmd h; simp at h
  | cons c rest ih =>
    intro i acc k cmd h
    cases k with
    | zero =>
      simp only [List.getElem?_cons_zero, Option.some_inj] at h
      subst h
      simp [execCommandsGo]
    | succ k1 =>
      simp only [List.getElem?_cons_succ] at h
      simp only [execCommandsGo, List.getElem?_cons_succ]
      have harith : i + 1 + k1 = i + (k1 + 1) := by omega
      rw [ih (i + 1) _ k1 cmd h, harith]

theorem mem_keys_execCommandsGo_mono (d : NetworkDevice) (beh : Nat → SendOutcome) :
    ∀ (cmds : List String) (i : Nat) (acc : Dict) (key : String),
      key ∈ dictKeys acc → key ∈ dictKeys (execCommandsGo d beh cmds i acc).1 := by
  intro cmds
  induction cmds with
  | nil => intro i acc key h; exact h
  | cons cmd rest ih =>
    intro i acc key h
    simp only [execCommandsGo]
    exact ih (i + 1) _ key (mem_dictKeys_dictSet_of_mem _ _ h)

theorem mem_keys_execCommandsGo (d : NetworkDevice) (beh : Nat → SendOutcome) :
    ∀ (cmds : List String) (i : Nat) (acc : Dict) (c : String),
      c ∈ cmds → c ∈ dictKeys (execCommandsGo d beh cmds i acc).1 := by
  intro cmds
  induction cmds with
  | nil => intro i acc c h; exact absurd h (by simp)
  | cons cmd rest ih =>
    intro i acc c h
    simp only [execCommandsGo]
    rcases List.mem_cons.mp h with h1 | h2
    · subst h1
      exact mem_keys_execCommandsGo_mono d beh rest (i + 1) _ c
        (mem_dictKeys_dictSet_self acc c _)
    · exact ih (i + 1) _ c h2

theorem hasKey_append (l1 l2 : Dict) (k : String) :
    dictHasKey (l1 ++ l2) k = (dictHasKey l1 k || dictHasKey l2 k) := by
  simp [dictHasKey, List.any_append]

theorem keys_execCommandsGo_nodup (d : NetworkDevice) (beh : Nat → SendOutcome) :
    ∀ (cmds : List String) (i : Nat) (acc : Dict),
      cmds.Nodup → (∀ c ∈ cmds, dictHasKey acc c = false) →
      dictKeys (execCommandsGo d beh cmds i acc).1 = dictKeys acc ++ cmds := by
  intro cmds
  induction cmds with
  | nil => intro i acc _ _; simp [execCommandsGo]
  | cons cmd rest ih =>
    intro i acc hnd hfree
    have hcmd : dictHasKey acc cmd = false := hfree cmd (by simp)
    have hset : dictSet acc cmd (cmdEntry d (beh i)) = acc ++ [(cmd, cmdEntry d (beh i))] := by
      simp [dictSet, hcmd]
    have hndrest : rest.Nodup := (List.nodup_cons.mp hnd).2
    have hnotmem : cmd ∉ rest := (List.nodup_cons.mp hnd).1
    have hfree2 : ∀ c ∈ rest, dictHasKey (acc ++ [(cmd, cmdEntry d (beh i))]) c = false := by
      intro c hc
      rw [hasKey_append]
      have h1 : dictHasKey acc c = false := hfree c (by simp [hc])
      have h2 : dictHasKey [(cmd, cmdEntry d (beh i))] c = false := by
        simp only [dictHasKey, List.any_cons, List.any_nil, Bool.or_false]
        simp only [beq_eq_false_iff_ne, ne_eq]
        intro hEq
        exact hnotmem (hEq ▸ hc)
      simp [h1, h2]
    have := ih (i + 1) (acc ++ [(cmd, cmdEntry d (beh i))]) hndrest hfree2
    simp only [execCommandsGo]
    rw [hset, this]
    simp [dictKeys]

/-! ## Claim C1 -/

/-- Claim C1: over one open session, when command `k` of a batch raises, the
loop of `execute_commands` still executes every remaining command in
submission order (the trace lists each submitted command, in order), the
iteration for command `k` stores an error description
(`"Error: " ++ message`), and every submitted command has an entry in the
returned results; one command's failure never aborts the rest of the batch. -/
theorem C1_batch_failure_isolation
    (d : NetworkDevice) (cmds : List String) (beh : Nat → SendOutcome)
    (k : Nat) (cmd e : String) (c : Conn)
    (hconn : d.connection = some c)
    (hcmd : cmds[k]? = some cmd)
    (hfail : beh k = .raises e) :
    (d.executeTrace cmds beh).map Prod.fst = cmds ∧
    (d.executeTrace cmds beh)[k]? = some (cmd, "Error: " ++ e) ∧
    ∀ c2 ∈ cmds, c2 ∈ dictKeys (d.execute_commands cmds beh) := by
  refine ⟨execTrace_map_fst d beh cmds 0 [], ?_, ?_⟩
  · have := execTrace_getElem d beh cmds 0 [] k cmd hcmd
    rw [NetworkDevice.executeTrace, this]
    simp [Nat.zero_add, hfail, cmdEntry_raises hconn]
  · intro c2 hc2
    exact mem_keys_execCommandsGo d beh cmds 0 [] c2 hc2

/-- Witness for C1: the two-command batch of the spec's end-to-end example,
where the second command raises. -/
theorem C1_batch_failure_isolation_witness :
    (devW.executeTrace cmdsW behW).map Prod.fst = cmdsW ∧
    (devW.executeTrace cmdsW behW)[1]? = some ("bogus-cmd", "Error: bad command") ∧
    "show version" ∈ dictKeys (devW.execute_commands cmdsW behW) := by
  have h := C1_batch_failure_isolation devW cmdsW behW 1 "bogus-cmd" "bad command"
    ⟨1⟩ rfl (by decide) rfl
  exact ⟨h.1, h.2.1, h.2.2 "show version" (by decide)⟩

/-! ## Claim C6 -/

/-- Counterexample to claim C6 as stated: `execute_commands` returns a Python
dict keyed by command text, so a batch that submits the same command twice
gets a single result entry, not one result per submitted command. -/
theorem C6_duplicate_commands_counterexample :
    ¬ ((devW.execute_commands ["show version", "show version"]
          (fun _ => .output "out")).length
        = ["show version", "show version"].length) := by
  decide

/-- Claim C6 as amended: executing a batch yields exactly one result entry per
DISTINCT command string; for a batch without duplicate command strings the
returned results hold exactly one entry per submitted command, keyed by the
command, in submission order.  (Duplicates collapse into the first
occurrence's slot, overwritten by the last occurrence's result.) -/
theorem C6_one_result_per_distinct_command
    (d : NetworkDevice) (cmds : List String) (beh : Nat → SendOutcome)
    (hnd : cmds.Nodup) :
    dictKeys (d.execute_commands cmds beh) = cmds ∧
    (d.execute_commands cmds beh).length = cmds.length := by
  have h := keys_execCommandsGo_nodup d beh cmds 0 [] hnd (fun c _ => rfl)
  have hkeys : dictKeys (d.execute_commands cmds beh) = cmds := by
    simpa [NetworkDevice.execute_commands, dictKeys] using h
  refine ⟨hkeys, ?_⟩
  have := congrArg List.length hkeys
  simpa [dictKeys] using this

/-- Witness for C6 (amended), on a duplicate-free two-command batch. -/
theorem C6_one_result_per_distinct_command_witness :
    dictKeys (devW.execute_commands cmdsW behW) = cmdsW ∧
    (devW.execute_commands cmdsW behW).length = cmdsW.length :=
  C6_one_result_per_distinct_command devW cmdsW behW (by decide)

/-! ## Fleet pass lemmas -/

theorem PassResult.append_assoc (a b c : PassResult) :
    (a.append b).append c = a.append (b.append c) := by
  simp [PassResult.append, List.append_assoc]

theorem runElements_append (beh : Nat → DevRun) :
    ∀ l1 l2 : List Element,
      runElements beh (l1 ++ l2) = (runElements beh l1).append (runElements beh l2) := by
  intro l1
  induction l1 with
  | nil => intro l2; simp [runElements, PassResult.append]
  | cons e rest ih =>
    intro l2
    show (processElement e (beh e.eid)).append (runElements beh (rest ++ l2))
        = ((processElement e (beh e.eid)).append (runElements beh rest)).append
          (runElements beh l2)
    rw [ih l2, PassResult.append_assoc]

theorem runElements_backups_length (beh : Nat → DevRun) :
    ∀ elems : List Element,
      (runElements beh elems).backups.length
        = (elems.filter fun e => (beh e.eid).succeeds).length := by
  intro elems
  induction elems with
  | nil => rfl
  | cons e rest ih =>
    simp only [runElements, PassResult.append, List.filter_cons]
    cases hr : beh e.eid <;>
      simp [processElement, DevRun.succeeds, hr, ih]

/-! ## Claim C2 -/

/-- Counterexample to claim C2 as stated: one eligible device is attempted,
its `connect()` returns False, and the pass records NO outcome for it: no
backup document and not even a console line (the `if device.connect():` body
is simply skipped).  The outcome collection has 0 entries, not 1. -/
theorem C2_missing_outcome_counterexample :
    ([elemN 0 "R0"].filter eligible).length = 1 ∧
    (runElements (fun _ => .connectFail)
        ([elemN 0 "R0"].filter eligible)).backups.length = 0 ∧
    (runElements (fun _ => .connectFail)
        ([elemN 0 "R0"].filter eligible)).logs.length = 0 := by
  decide

/-- Claim C2 as amended: a fleet pass records AT MOST one outcome entry per
device attempted — exactly one backup record for each attempted device whose
connect, command, and store all succeed, and no entry at all for a device
that fails to connect or fails during execution. -/
theorem C2_at_most_one_outcome_per_device
    (elems : List Element) (beh : Nat → DevRun) :
    backup_all_devices (Except.ok elems) beh
      = Except.ok (runElements beh (elems.filter eligible)) ∧
    (runElements beh (elems.filter eligible)).backups.length
      = ((elems.filter eligible).filter fun e => (beh e.eid).succeeds).length ∧
    (runElements beh (elems.filter eligible)).backups.length
      ≤ (elems.filter eligible).length := by
  refine ⟨rfl, runElements_backups_length beh _, ?_⟩
  rw [runElements_backups_length beh _]
  exact List.length_filter_le _ _

/-! ## Claim C3 -/

/-- Counterexample to claim C3 as stated: device 0 fails to connect, device 1
succeeds.  Device 1 is still processed (the pass is not aborted), but device
0's connection failure is recorded NOWHERE: no backup entry and no log line
mentions it, contradicting "recorded in that device's own outcome". -/
theorem C3_unrecorded_failure_counterexample :
    ((runElements behFirstConnectFail elemsTwo).backups.filter
        fun b => b.element_id == 0).length = 0 ∧
    (runElements behFirstConnectFail elemsTwo).logs = ["Backed up R1"] ∧
    (runElements behFirstConnectFail elemsTwo).backups.map Backup.element_id = [1] := by
  decide

/-- Claim C3 as amended: processing is pointwise — a connection or command
failure on one device never aborts the processing of the remaining devices
(the outcomes of any suffix of the device list are unaffected by the prefix),
and the pass as a whole fails, producing no pass record, exactly when the
device list cannot be obtained; however a failure is not recorded in a
per-device outcome: a command exception leaves only a console log line and a
connect failure leaves no record at all. -/
theorem C3_failure_containment (beh : Nat → DevRun) (l1 l2 : List Element)
    (msg : String) (elems : List Element) (e : Element) (err : String) :
    (runElements beh (l1 ++ l2)).backups
      = (runElements beh l1).backups ++ (runElements beh l2).backups ∧
    (runElements beh (l1 ++ l2)).logs
      = (runElements beh l1).logs ++ (runElements beh l2).logs ∧
    (runElements beh (l1 ++ l2)).events
      = (runElements beh l1).events ++ (runElements beh l2).events ∧
    backup_all_devices (Except.error msg) beh = Except.error msg ∧
    backup_all_devices (Except.ok elems) beh
      = Except.ok (runElements beh (elems.filter eligible)) ∧
    processElement e .connectFail = ⟨[], [], []⟩ ∧
    (processElement e (.execRaises err)).backups = [] := by
  have h := runElements_append beh l1 l2
  refine ⟨?_, ?_, ?_, rfl, rfl, rfl, rfl⟩ <;> rw [h] <;> rfl

/-! ## Open-session lemmas for claim C9 -/

theorem mem_openStates_append :
    ∀ (l1 l2 : List SessEvent) (cur s : List Nat),
      s ∈ openStates cur (l1 ++ l2) →
      s ∈ openStates cur l1 ∨ s ∈ openStates (List.foldl stepOpen cur l1) l2 := by
  intro l1
  induction l1 with
  | nil => intro l2 cur s h; exact Or.inr (by simpa using h)
  | cons ev rest ih =>
    intro l2 cur s h
    simp only [List.cons_append, openStates, List.mem_cons] at h
    rcases h with h1 | h2
    · exact Or.inl (by simp [openStates, h1])
    · rcases ih l2 (stepOpen cur ev) s h2 with h3 | h4
      · exact Or.inl (by simp [openStates, h3])
      · exact Or.inr (by simpa [List.foldl_cons] using h4)

theorem noleak_openStates (beh : Nat → DevRun) :
    ∀ elems : List Element, (∀ e ∈ elems, (beh e.eid).leaks = false) →
      (∀ s ∈ openStates [] (runElements beh elems).events, s.length ≤ 1) ∧
      List.foldl stepOpen [] (runElements beh elems).events = [] := by
  intro elems
  induction elems with
  | nil =>
    intro _
    refine ⟨?_, rfl⟩
    intro s hs
    simp only [runElements, openStates, List.mem_singleton] at hs
    simp [hs]
  | cons e rest ih =>
    intro hnl
    have hrest := ih fun x hx => hnl x (by simp [hx])
    have hev : (runElements beh (e :: rest)).events
        = (processElement e (beh e.eid)).events ++ (runElements beh rest).events := rfl
    cases hr : beh e.eid with
    | execRaises err =>
      exact absurd (hnl e (by simp)) (by simp [hr, DevRun.leaks])
    | connectFail =>
      have hev2 : (runElements beh (e :: rest)).events
          = (runElements beh rest).events := by
        rw [hev, hr]
        rfl
      constructor
      · intro s hs
        rw [hev2] at hs
        exact hrest.1 s hs
      · rw [hev2]
        exact hrest.2
    | ok cfg =>
      have hblock : (processElement e (.ok cfg)).events
          = [.opened e.eid, .closed e.eid] := rfl
      have hfold : List.foldl stepOpen [] [SessEvent.opened e.eid, .closed e.eid] = [] := by
        simp [stepOpen]
      constructor
      · intro s hs
        rw [hev, hr, hblock] at hs
        rcases mem_openStates_append _ _ _ _ hs with h1 | h2
        · have hos : openStates [] [SessEvent.opened e.eid, .closed e.eid]
              = [[], [e.eid], []] := by
            simp [openStates, stepOpen]
          rw [hos] at h1
          simp only [List.mem_cons, List.mem_singleton, List.not_mem_nil,
            or_false] at h1
          rcases h1 with rfl | rfl | rfl <;> simp
        · rw [hfold] at h2
          exact hrest.1 s h2
      · rw [hev, hr, hblock, List.foldl_append, hfold]
        exact hrest.2

theorem foldl_max_le {l : List Nat} {acc n : Nat} (ha : acc ≤ n)
    (h : ∀ x ∈ l, x ≤ n) : l.foldl Nat.max acc ≤ n := by
  induction l generalizing acc with
  | nil => exact ha
  | cons x rest ih =>
    exact ih (Nat.max_le.mpr ⟨ha, h x (by simp)⟩) fun y hy => h y (by simp [hy])

theorem open_count (beh : Nat → DevRun) :
    ∀ (elems : List Element) (cur : List Nat),
      (List.foldl stepOpen cur (runElements beh elems).events).length
        = cur.length + (elems.filter fun e => (beh e.eid).leaks).length := by
  intro elems
  induction elems with
  | nil => intro cur; simp [runElements]
  | cons e rest ih =>
    intro cur
    have hev : (runElements beh (e :: rest)).events
        = (processElement e (beh e.eid)).events ++ (runElements beh rest).events := rfl
    rw [hev, List.foldl_append, List.filter_cons]
    cases hr : beh e.eid with
    | connectFail =>
      have hblock : (processElement e DevRun.connectFail).events = [] := rfl
      rw [hblock, List.foldl_nil, ih cur]
      simp [DevRun.leaks]
    | execRaises err =>
      have hblock : (processElement e (DevRun.execRaises err)).events
          = [.opened e.eid] := rfl
      rw [hblock]
      simp only [List.foldl_cons, List.foldl_nil, stepOpen]
      rw [ih (cur ++ [e.eid])]
      simp [DevRun.leaks]
      omega
    | ok cfg =>
      have hblock : (processElement e (DevRun.ok cfg)).events
          = [.opened e.eid, .closed e.eid] := rfl
      rw [hblock]
      simp only [List.foldl_cons, List.foldl_nil, stepOpen]
      rw [ih ((cur ++ [e.eid]).erase e.eid)]
      rw [List.length_erase_of_mem (by simp)]
      simp [DevRun.leaks]

/-! ## Claim C9 -/

/-- Counterexample to claim C9 as stated (spec example: limit 2, five
devices): five devices each connect successfully and then raise during the
command; the loop never reaches `device.disconnect()`, so all five sessions
are simultaneously open — the claimed bound of 2 is exceeded. -/
theorem C9_unbounded_open_sessions_counterexample :
    elemsFive.length = 5 ∧
    maxOpen (runElements behLeak elemsFive).events = 5 ∧
    ¬ maxOpen (runElements behLeak elemsFive).events ≤ 2 := by
  decide

/-- Claim C9 as amended: the fleet pass has no configured concurrency limit;
devices are processed strictly sequentially, so as long as no session is
leaked at most one session is open at any point; but every device whose
command raises after a successful connect leaves its session open, so the
number of simultaneously open sessions at the end of the pass equals the
number of such devices, growing with the fleet rather than being capped. -/
theorem C9_sequential_with_leaks (elems : List Element) (beh : Nat → DevRun) :
    ((∀ e ∈ elems, (beh e.eid).leaks = false) →
      maxOpen (runElements beh elems).events ≤ 1) ∧
    (List.foldl stepOpen [] (runElements beh elems).events).length
      = (elems.filter fun e => (beh e.eid).leaks).length := by
  constructor
  · intro hnl
    have h := noleak_openStates beh elems hnl
    apply foldl_max_le (Nat.zero_le 1)
    intro x hx
    simp only [List.mem_map] at hx
    obtain ⟨s, hs, rfl⟩ := hx
    exact h.1 s hs
  · simpa using open_count beh elems []

/-- Witness for C9 (amended): five healthy devices, no leak, at most one
session open at any point of the pass. -/
theorem C9_sequential_with_leaks_witness :
    maxOpen (runElements behOkAll elemsFive).events ≤ 1 ∧
    (List.foldl stepOpen [] (runElements behOkAll elemsFive).events).length
      = (elemsFive.filter fun e => (behOkAll e.eid).leaks).length := by
  have h := C9_sequential_with_leaks elemsFive behOkAll
  exact ⟨h.1 (by decide), h.2⟩

/-! ## Scheduler lemmas -/

theorem passTimes_start_le (interval : Nat) :
    ∀ (ds : List Nat) (t : Nat), ∀ p ∈ passTimes interval t ds,
      t ≤ p.1 ∧ p.1 ≤ p.2 := by
  intro ds
  induction ds with
  | nil => intro t p hp; simp [passTimes] at hp
  | cons d rest ih =>
    intro t p hp
    simp only [passTimes, List.mem_cons] at hp
    rcases hp with rfl | hp
    · exact ⟨Nat.le_refl t, Nat.le_add_right t d⟩
    · have h := ih (t + d + interval) p hp
      exact ⟨by omega, h.2⟩

theorem passTimes_pairwise (interval : Nat) :
    ∀ (ds : List Nat) (t : Nat),
      List.Pairwise (fun p q => p.2 ≤ q.1) (passTimes interval t ds) := by
  intro ds
  induction ds with
  | nil => intro t; simp [passTimes]
  | cons d rest ih =>
    intro t
    simp only [passTimes]
    refine List.Pairwise.cons ?_ (ih (t + d + interval))
    intro q hq
    have h := passTimes_start_le interval rest (t + d + interval) q hq
    simp only
    omega

theorem schedulerLog_no_skipped : ∀ n : Nat, "SkippedTick" ∉ schedulerLog n := by
  intro n
  induction n with
  | zero => intro h; exact absurd h (List.not_mem_nil _)
  | succ n ih =>
    intro h
    rcases List.mem_append.mp h with h1 | h2
    · exact ih h1
    · exact absurd h2 (by decide)

/-! ## Claim C4 -/

/-- Counterexample to claim C4 as stated: interval 1, a single pass of
duration 3.  The pass runs over [0, 3) and has not completed when the next
interval elapses at time 1, yet no SkippedTick event is recorded — the
scheduler's output consists solely of run/complete lines; the loop simply
sleeps for the full interval after the pass completes. -/
theorem C4_no_skippedtick_counterexample :
    schedulerPasses 1 [3] = [(0, 3)] ∧ 0 + 1 < 3 ∧
    "SkippedTick" ∉ schedulerLog 1 := by
  refine ⟨rfl, by omega, ?_⟩
  decide

/-- Claim C4 as amended: at most one pass is ever in flight — the passes of
any schedule are pairwise disjoint in time (each pass ends no later than the
next begins), because the loop awaits the running pass to completion and only
then sleeps for the interval; but there are no fixed interval ticks to skip:
the next pass simply starts one interval after the previous pass completes,
and no SkippedTick event is ever recorded. -/
theorem C4_single_pass_in_flight (interval : Nat) (durations : List Nat)
    (n : Nat) :
    List.Pairwise (fun p q => p.2 ≤ q.1) (schedulerPasses interval durations) ∧
    "SkippedTick" ∉ schedulerLog n :=
  ⟨passTimes_pairwise interval durations 0, schedulerLog_no_skipped n⟩

/-! ## Broadcast lemmas -/

theorem broadcast_all_healthy :
    ∀ subs : List Subscriber, (∀ s ∈ subs, s.healthy = true) →
      broadcast subs = (subs.map Subscriber.sid, none) := by
  intro subs
  induction subs with
  | nil => intro _; rfl
  | cons s rest ih =>
    intro h
    have hs : s.healthy = true := h s (by simp)
    simp [broadcast, hs, ih fun x hx => h x (by simp [hx])]

theorem broadcast_aborts :
    ∀ (l : List Subscriber) (s : Subscriber) (r : List Subscriber),
      (∀ x ∈ l, x.healthy = true) → s.healthy = false →
      broadcast (l ++ s :: r) = (l.map Subscriber.sid, some s.sid) := by
  intro l
  induction l with
  | nil =>
    intro s r _ hs
    simp [broadcast, hs]
  | cons x rest ih =>
    intro s r hh hs
    have hx : x.healthy = true := hh x (by simp)
    have h := ih s r (fun y hy => hh y (by simp [hy])) hs
    simp [broadcast, hx, h]

/-! ## Claim C5 -/

/-- Counterexample to claim C5 as stated: subscriber 1 is registered, but
subscriber 0's `send_json` raises first (disconnected client), the exception
propagates out of the sequential `for` loop of `broadcast`, and subscriber 1
never receives the event — delivery to every registered subscriber fails, and
no per-subscriber buffer or Dropped marker exists to absorb it. -/
theorem C5_blocked_delivery_counterexample :
    (⟨1, true⟩ : Subscriber) ∈ subsBadFirst ∧
    (broadcast subsBadFirst).1 = [] ∧
    1 ∉ (broadcast subsBadFirst).1 := by
  decide

/-- Claim C5 as amended: `broadcast` sends the event sequentially, in
registration order, awaiting each subscriber in turn; when every send
succeeds all registered subscribers receive the event, but a subscriber whose
send raises aborts the loop, so subscribers after it receive nothing; there
are no per-subscriber delivery buffers and no Dropped marker events. -/
theorem C5_sequential_broadcast (subs : List Subscriber) :
    ((∀ s ∈ subs, s.healthy = true) →
      broadcast subs = (subs.map Subscriber.sid, none)) ∧
    (∀ (l : List Subscriber) (s : Subscriber) (r : List Subscriber),
      subs = l ++ s :: r → (∀ x ∈ l, x.healthy = true) → s.healthy = false →
      broadcast subs = (l.map Subscriber.sid, some s.sid)) := by
  refine ⟨broadcast_all_healthy subs, ?_⟩
  intro l s r heq hh hs
  subst heq
  exact broadcast_aborts l s r hh hs

/-- Witness for C5 (amended): two healthy subscribers both receive; with a
failing subscriber in the middle, only those before it receive. -/
theorem C5_sequential_broadcast_witness :
    broadcast subsHealthy = ([0, 1], none) ∧
    broadcast subsBadMid = ([0], some 1) := by
  refine ⟨(C5_sequential_broadcast subsHealthy).1 (by decide), ?_⟩
  exact (C5_sequential_broadcast subsBadMid).2 [⟨0, true⟩] ⟨1, false⟩
    [⟨2, true⟩] rfl (by decide) rfl

/-! ## Claim C7 -/

/-- Counterexample to claim C7 as stated: a handle that connected and was then
closed is not in the Connected state, yet `execute_command` on it attempts
transport I/O: `disconnect` leaves `self.connection` set, so the
`if not self.connection` guard does not fire and `send_command` is invoked on
the dead transport (failing from the I/O layer, not from an InvalidState
check). -/
theorem C7_closed_handle_counterexample :
    vClosed.state ≠ SessionState.Connected ∧
    (vClosed.dev.execute_command (.raises "Socket is closed")).2 = true := by
  decide

/-- Claim C7 as amended: `run` fails with the not-connected error, without
attempting transport I/O, exactly when the handle holds no connection object
(never connected, or its connect failed); a closed handle still holds its
stale connection object, so the guard does not detect it and I/O is
attempted. -/
theorem C7_guard_only_never_connected (v : SessView) (beh : SendOutcome) :
    ((v.dev.execute_command beh).2 = false ↔ v.dev.connection = none) ∧
    (v.dev.connection = none →
      (v.dev.execute_command beh).1 = Except.error "Not connected to device" ∧
      v.state = SessionState.NeverConnected) := by
  constructor
  · constructor
    · intro h
      cases hc : v.dev.connection with
      | none => rfl
      | some c => cases beh <;> simp [NetworkDevice.execute_command, hc] at h
    · intro h
      simp [NetworkDevice.execute_command, h]
  · intro h
    exact ⟨by simp [NetworkDevice.execute_command, h],
      by simp [SessView.state, h]⟩

/-- Witness for C7 (amended): a never-connected handle. -/
theorem C7_guard_only_never_connected_witness :
    (vNone.dev.execute_command (.output "x")).2 = false ∧
    (vNone.dev.execute_command (.output "x")).1
      = Except.error "Not connected to device" := by
  have h := C7_guard_only_never_connected vNone (.output "x")
  exact ⟨h.1.mpr rfl, (h.2 rfl).1⟩

/-! ## Claim C8 -/

/-- Counterexample to claim C8 as stated: close a connected handle, then close
it again — the second close issues another underlying release call on the
already-released resource, because `disconnect` never clears
`self.connection`; "a second close performs no further resource release" is
false for this code. -/
theorem C8_double_release_counterexample :
    vConn.close.closedIds = [7] ∧
    vConn.close.close.closedIds = [7, 7] ∧
    (vConn.close.dev.disconnect).2 ≠ [] := by
  decide

/-- Claim C8 as amended: close never raises; on a never-connected handle it is
a no-op; on a handle holding a connection object it invokes the underlying
release on EVERY call — including repeated closes of the same handle — since
the connection reference survives `disconnect`.  Close is therefore safe in
any state but not idempotent in its released-resource effect. -/
theorem C8_close_releases_every_time (v : SessView) :
    (v.dev.connection = none → v.close = v) ∧
    (∀ c : Conn, v.dev.connection = some c →
      v.close.dev.connection = some c ∧
      v.close.closedIds = v.closedIds ++ [c.id] ∧
      v.close.close.closedIds = v.closedIds ++ [c.id, c.id]) := by
  constructor
  · intro h
    simp [SessView.close, NetworkDevice.disconnect, h]
  · intro c h
    refine ⟨?_, ?_, ?_⟩ <;>
      simp [SessView.close, NetworkDevice.disconnect, h]

/-- Witness for C8 (amended): a never-connected handle and a connected one. -/
theorem C8_close_releases_every_time_witness :
    vNone.close = vNone ∧
    vConn.close.closedIds = vConn.closedIds ++ [connA.id] ∧
    vConn.close.close.closedIds = vConn.closedIds ++ [connA.id, connA.id] := by
  have h1 := (C8_close_releases_every_time vNone).1 rfl
  have h2 := (C8_close_releases_every_time vConn).2 connA rfl
  exact ⟨h1, h2.2.1, h2.2.2⟩

/-! ## Claim C10 -/

theorem status_partition :
    ∀ elements : List Element,
      (elements.filter fun e => e.status == "active").length
      + (elements.filter fun e => e.status == "warning").length
      + (elements.filter fun e => e.status == "inactive").length
      + (elements.filter fun e =>
          !(e.status == "active" || e.status == "warning"
            || e.status == "inactive")).length
      = elements.length := by
  intro elements
  induction elements with
  | nil => rfl
  | cons e rest ih =>
    by_cases h1 : e.status = "active"
    · have b1 : (e.status == "active") = true := by rw [h1]; decide
      have b2 : (e.status == "warning") = false := by rw [h1]; decide
      have b3 : (e.status == "inactive") = false := by rw [h1]; decide
      have b4 : (!(e.status == "active" || e.status == "warning"
          || e.status == "inactive")) = false := by rw [b1]; rfl
      simp only [List.filter_cons]
      rw [b4, b1, b2, b3]
      simp at ih ⊢
      omega
    · by_cases h2 : e.status = "warning"
      · have b1 : (e.status == "active") = false := by rw [h2]; decide
        have b2 : (e.status == "warning") = true := by rw [h2]; decide
        have b3 : (e.status == "inactive") = false := by rw [h2]; decide
        have b4 : (!(e.status == "active" || e.status == "warning"
            || e.status == "inactive")) = false := by rw [b1, b2]; rfl
        simp only [List.filter_cons]
        rw [b4, b1, b2, b3]
        simp at ih ⊢
        omega
      · by_cases h3 : e.status = "inactive"
        · have b1 : (e.status == "active") = false := by rw [h3]; decide
          have b2 : (e.status == "warning") = false := by rw [h3]; decide
          have b3 : (e.status == "inactive") = true := by rw [h3]; decide
          have b4 : (!(e.status == "active" || e.status == "warning"
              || e.status == "inactive")) = false := by rw [b1, b2, b3]; rfl
          simp only [List.filter_cons]
          rw [b4, b1, b2, b3]
          simp at ih ⊢
          omega
        · have b1 : (e.status == "active") = false := by
            rw [beq_eq_false_iff_ne]; exact h1
          have b2 : (e.status == "warning") = false := by
            rw [beq_eq_false_iff_ne]; exact h2
          have b3 : (e.status == "inactive") = false := by
            rw [beq_eq_false_iff_ne]; exact h3
          have b4 : (!(e.status == "active" || e.status == "warning"
              || e.status == "inactive")) = true := by rw [b1, b2, b3]; rfl
          simp only [List.filter_cons]
          rw [b4, b1, b2, b3]
          simp at ih ⊢
          omega

/-- Claim C10: the dashboard's Total equals the number of elements passed in,
and the Active, Warning, Inactive cards each count exactly the elements whose
status string is exactly that word; an element with any other status is
counted in Total but in none of the three cards, so the three cards sum to the
length of the three exact-match groups and Active + Warning + Inactive is at
most Total. -/
theorem C10_dashboard_counts (elements : List Element) :
    (dashboardStats elements).total = elements.length ∧
    (dashboardStats elements).active
      = elements.countP (fun e => e.status == "active") ∧
    (dashboardStats elements).warning
      = elements.countP (fun e => e.status == "warning") ∧
    (dashboardStats elements).inactive
      = elements.countP (fun e => e.status == "inactive") ∧
    (dashboardStats elements).active + (dashboardStats elements).warning
      + (dashboardStats elements).inactive
      + (elements.filter fun e =>
          !(e.status == "active" || e.status == "warning"
            || e.status == "inactive")).length
      = (dashboardStats elements).total ∧
    (dashboardStats elements).active + (dashboardStats elements).warning
      + (dashboardStats elements).inactive ≤ (dashboardStats elements).total := by
  have hp := status_partition elements
  refine ⟨rfl, (List.countP_eq_length_filter _ _).symm,
    (List.countP_eq_length_filter _ _).symm,
    (List.countP_eq_length_filter _ _).symm, ?_, ?_⟩
  · simpa [dashboardStats] using hp
  · simp only [dashboardStats]
    omega

end NetMon
